import Mathlib

/-!
Shallow embedding of the StockChain peer-to-peer chat node
(src/src/gossip/mod.rs, src/src/gossip.rs, src/src/communication.rs,
src/src/main.rs) and proofs about its routing filter, framing, room
table and handshake dispatch.

Modelling conventions:
* A `PeerId` only ever appears through its printable form (`to_string`),
  so peers are modelled as `String`.
* The transport uses `IdentTopic`, whose `TopicHash` is the topic name
  itself; a topic handle and a topic hash are therefore both modelled as
  the topic name `String`.
* Byte buffers (`Vec<u8>`, `&[u8]`) are `List Nat`; only equality and
  length of bytes matter to the properties proved here.
* Randomness (the 16-byte nounce filled by `rand::fill`) is passed as an
  explicit argument.
* `serde_json` serialization, the derived `Debug` formatter and UTF-8
  lossy decoding are external libraries; they enter as function
  parameters of the definitions that call them.
* Rust panics (slice index out of range, `panic!`) are modelled by
  `Option`/`Except` failure values.
-/

/-- Bytes on the wire: a list of natural numbers standing for u8 values. -/
abbrev Bytes := List Nat

/-- Rust `str::starts_with`: byte-level, equivalently character-level,
test that `p` is an initial segment of `s`. -/
def starts_with (s p : String) : Bool :=
  p.data.isPrefixOf s.data

/-- Helper for substring search: does `needle` occur as a contiguous
block inside the haystack. -/
def contains_chars (needle : List Char) : List Char → Bool
  | [] => needle.isEmpty
  | c :: t => needle.isPrefixOf (c :: t) || contains_chars needle t

/-- Rust `str::contains`: substring containment (for valid UTF-8 the
byte-level search of the source coincides with this character-level
search, because UTF-8 is self-synchronizing). -/
def str_contains (hay needle : String) : Bool :=
  contains_chars needle.data hay.data

/-- The envelope type `InteractionMessage` of src/src/communication.rs.
Key material (`sig::PublicKey`, `kem::PublicKey`, `sig::Signature`,
`kem::Ciphertext`) is opaque byte data. `SharedSecretCommunication`
carries the 12-byte AEAD nonce and the ciphertext. -/
inductive InteractionMessage
  | Ping
  | RequestPublicKey
  | ReplyPublicKey (pk : Bytes)
  | SharedSecretExchange (kem_pk : Bytes) (signature : Bytes) (pk : Bytes)
  | SharedSecretExchangeResponse (kem_ct : Bytes) (signature : Bytes) (pk : Bytes)
  | SharedSecretCommunication (nonce : Bytes) (ciphertext : Bytes)
  | Other (s : String)
deriving DecidableEq, Repr

/-- The `Room` classification of src/src/gossip/mod.rs. -/
inductive Room
  | PublicRoom (name : String)
  | DirectMessage (name : String)
deriving DecidableEq, Repr

/-- Modelled from the spec: the accessor `Room::name()` used by
src/src/communication.rs and src/src/main.rs is absent from src/; per
the spec each variant carries the room name, and `name` returns it. -/
def Room.name : Room → String
  | Room.PublicRoom n => n
  | Room.DirectMessage n => n

/-- The `MessageData` record of src/src/gossip/mod.rs. -/
structure MessageData where
  peer : String
  message : String
  room : Room
deriving DecidableEq, Repr

/-- The `GossipEvent` type of src/src/gossip/mod.rs. -/
inductive GossipEvent
  | NewConnection (peers : List String)
  | Disconnection (peers : List String)
  | Message (data : MessageData)
deriving DecidableEq, Repr

/-- Modelled from the spec: the `Secret` store of src/gossip/secret.rs,
a file the repository references (`pub mod secret;` in
src/src/gossip/mod.rs) but that is absent from src/. Per spec section
4.2 it owns the long-term signature keypair, the per-peer shared
secrets (SessionMap) and the pending KEM keypairs (PendingKemMap).
The maps are association lists keyed by the printable peer id. -/
structure Secret where
  public_key : Bytes
  private_key : Bytes
  shared_secret : List (String × Bytes)
  pending : List (String × (Bytes × Bytes))
deriving DecidableEq, Repr

/-- Association-list lookup with HashMap semantics: the value of the
first entry with the given key. -/
def map_lookup (m : List (String × α)) (k : String) : Option α :=
  (m.find? fun e => e.1 == k).map (fun e => e.2)

/-- Association-list insert with HashMap semantics: the new binding
replaces any previous binding of the same key. -/
def map_insert (m : List (String × α)) (k : String) (v : α) : List (String × α) :=
  (k, v) :: m.filter fun e => e.1 != k

/-- Association-list removal of every binding of the key. -/
def map_erase (m : List (String × α)) (k : String) : List (String × α) :=
  m.filter fun e => e.1 != k

/-- The `Gossip` state of src/src/gossip/mod.rs: the swarm is external
and enters only through its stable local peer id; `topics` is the room
table of `(name, IdentTopic)` pairs, the handle recorded as the topic
name it was built from (`IdentTopic::new`). -/
structure Gossip where
  localPeerId : String
  topics : List (String × String)
  peer_ids : List String
  secret : Secret
deriving DecidableEq, Repr

/-- The room names stored in the room table, in order. -/
def room_names (g : Gossip) : List String :=
  g.topics.map (fun t => t.1)

/-- Gossip::fetch_room_from_name (src/src/gossip/mod.rs lines 151-158):
first entry of the table with the given name. -/
def fetch_room_from_name (g : Gossip) (topic_self : String) : Option String :=
  (g.topics.find? fun t => t.1 == topic_self).map (fun t => t.2)

/-- Gossip::join_room (src/src/gossip/mod.rs lines 159-165): pushes a
`(name, topic)` pair onto the table unconditionally, then subscribes
(the subscribe call is external transport state). -/
def join_room (g : Gossip) (topic_str : String) : Gossip :=
  { g with topics := g.topics ++ [(topic_str, topic_str)] }

/-- Gossip::leave_room (src/src/gossip/mod.rs lines 166-171): retains
exactly the entries whose name differs from the argument. -/
def leave_room (g : Gossip) (topic_str : String) : Gossip :=
  { g with topics := g.topics.filter fun t => t.1 != topic_str }

/-- Modelled from the spec: `generate_room_name` is exported from the
gossip module and used by src/src/communication.rs and src/src/main.rs,
but its defining file is absent from src/. Per spec sections 3 and 9 it
is the last 5 characters of the printable peer id, exactly the string
the inline block of `open_ears` (src/src/gossip/mod.rs lines 180-184)
computes. -/
def generate_room_name (peer_id : String) : String :=
  String.mk (peer_id.data.drop (peer_id.data.length - 5))

/-- Gossip::open_ears (src/src/gossip/mod.rs lines 172-191): joins the
room whose name is the last five characters of the local peer id (the
inline computation panics for ids shorter than five characters; all
properties are used at ids of length at least five). Listening on the
transport is external. -/
def open_ears (g : Gossip) : Gossip :=
  join_room g (generate_room_name g.localPeerId)

/-- The startup sequence of main (src/src/main.rs lines 13-15):
join_room "public_test" then open_ears. -/
def startup (g : Gossip) : Gossip :=
  open_ears (join_room g "public_test")

/-- NOUNCE_LEN of src/src/gossip.rs line 23. -/
def NOUNCE_LEN : Nat := 16

/-- Gossip::add_nounce (src/src/gossip.rs lines 194-201): prepends a
16-byte random nounce to the message; the random bytes drawn by
`rand::fill` are the explicit first argument. The `Nonce::add_nonce`
used by src/src/gossip/mod.rs lives in the absent file
src/gossip/nonce.rs and is, per spec section 4.1, this same
operation. -/
def add_nounce (nounce : Bytes) (message : Bytes) : Bytes :=
  nounce ++ message

/-- Gossip::remove_nounce (src/src/gossip.rs lines 202-206): copies
`message[NOUNCE_LEN..]`; for inputs shorter than NOUNCE_LEN the slice
index is out of range and the function panics, modelled as `none`.
`Nonce::remove_nonce` of the absent src/gossip/nonce.rs is, per spec
section 4.1 (`strip` is `bytes[16:]`), this same operation. -/
def remove_nounce (message : Bytes) : Option Bytes :=
  if NOUNCE_LEN ≤ message.length then some (message.drop NOUNCE_LEN) else none

/-- Gossip::gossip (src/src/gossip/mod.rs lines 192-202): the published
frame is the serialized envelope with the fresh nounce prepended. The
`serde_json::to_string` serialization composed with UTF-8 encoding is
the external parameter `ser`; publication itself is transport state. -/
def gossip_publish (ser : InteractionMessage → Bytes) (nounce : Bytes)
    (message : InteractionMessage) : Bytes :=
  add_nounce nounce (ser message)

/-- Gossip::get_room_from_topic (src/src/gossip/mod.rs lines 276-281):
a topic equal to the full printable local peer id is a DirectMessage;
every other topic is a PublicRoom. -/
def get_room_from_topic (g : Gossip) (topic : String) : Room :=
  if topic = g.localPeerId then Room.DirectMessage topic
  else Room.PublicRoom topic

/-- Gossip::get_topic_name_from_hash (src/src/gossip/mod.rs lines
268-275): scans the table in order for the first entry whose topic
hash matches (for IdentTopic the hash is the name itself) and
classifies its name; if no entry matches the source panics, modelled
as `none`. -/
def get_topic_name_from_hash (g : Gossip) (topic : String) : Option Room :=
  (g.topics.find? fun t => t.2 == topic).map
    (fun t => get_room_from_topic g t.1)

/-- The inbound gossipsub message of a SwarmEvent: its topic hash
(printable form equal to the topic name, IdentTopic) and raw data. -/
structure InboundMessage where
  topic : String
  data : Bytes
deriving DecidableEq, Repr

/-- The routing filter inside the Message arm of Gossip::handle_event
(src/src/gossip/mod.rs lines 238-252), true exactly when the frame is
dropped: the topic is not a public room (`is_public_room`), the
sending peer id does not contain the topic name
(`is_message_by_the_dm_op`), and the local peer id does not contain
the topic name (`is_message_in_self_dm`). -/
def routing_drop (g : Gossip) (peer_id topic : String) : Bool :=
  !starts_with topic "public_" && !str_contains peer_id topic
    && !str_contains g.localPeerId topic

/-- The Gossipsub Message arm of Gossip::handle_event
(src/src/gossip/mod.rs lines 233-260). The routing filter runs first;
a dropped frame returns `Except.ok none`. An accepted frame has its
nounce stripped (a panic for short frames, `Except.error ()`), is
decoded by the external lossy UTF-8 decoder `decode`, and its room is
resolved by `get_topic_name_from_hash` (a panic when the topic is not
in the table). The mdns and listen arms of handle_event are transport
glue outside the verified core. -/
def handle_event_message (decode : Bytes → String) (g : Gossip)
    (peer_id : String) (message : InboundMessage) :
    Except Unit (Option GossipEvent) :=
  if routing_drop g peer_id message.topic then
    Except.ok none
  else
    match remove_nounce message.data with
    | none => Except.error ()
    | some data =>
      match get_topic_name_from_hash g message.topic with
      | none => Except.error ()
      | some room =>
        Except.ok (some (GossipEvent.Message
          { peer := peer_id, message := decode data, room := room }))

/-- The error type GetDataViaMessageError of src/src/communication.rs
(the serde error payload is irrelevant to the properties proved). -/
inductive GetDataViaMessageError
  | NotOurChannel
  | Serde
deriving DecidableEq, Repr

/-- get_message_via_data (src/src/communication.rs lines 54-78). The
external `serde_json::from_str` parser is the parameter `parse`
(`none` is a parse failure) and the derived Debug formatter is `dbg`.
The source takes `&mut Gossip` but contains no mutating statement, so
the state is returned unchanged alongside the result; the match arms
are in source order, so a Ping is answered in any room, then any other
envelope in a public room collapses to Other, and the
SharedSecretExchange gate compares the room name with the
direct-message room name of the local peer. -/
def get_message_via_data (parse : String → Option InteractionMessage)
    (dbg : InteractionMessage → String) (g : Gossip) (md : MessageData) :
    Gossip × Except GetDataViaMessageError InteractionMessage :=
  (g,
    match parse md.message with
    | none => Except.error GetDataViaMessageError.Serde
    | some m =>
      match md.room, m with
      | _, InteractionMessage.Ping => Except.ok InteractionMessage.Ping
      | Room.PublicRoom _, e =>
          Except.ok (InteractionMessage.Other ("Public room: " ++ dbg e))
      | _, InteractionMessage.RequestPublicKey =>
          Except.ok InteractionMessage.RequestPublicKey
      | _, InteractionMessage.ReplyPublicKey e =>
          Except.ok (InteractionMessage.ReplyPublicKey e)
      | _, InteractionMessage.SharedSecretExchange a s p =>
          if generate_room_name g.localPeerId ≠ md.room.name then
            Except.error GetDataViaMessageError.NotOurChannel
          else
            Except.ok (InteractionMessage.SharedSecretExchange a s p)
      | _, InteractionMessage.SharedSecretExchangeResponse a s p =>
          Except.ok (InteractionMessage.SharedSecretExchangeResponse a s p)
      | _, InteractionMessage.SharedSecretCommunication n c =>
          Except.ok (InteractionMessage.SharedSecretCommunication n c)
      | _, InteractionMessage.Other e =>
          Except.ok (InteractionMessage.Other e))

/-- Modelled from the spec: the error type of the Secret operations of
the absent src/gossip/secret.rs, per spec section 7. -/
inductive SecretError
  | InvalidSignature
  | NoPending
  | NoSession
  | AeadFailure
deriving DecidableEq, Repr

/-- Modelled from the spec: the cryptographic primitives (ML-DSA
signatures, the KEM, AES-GCM) are external libraries, abstracted as
function parameters. `verify pk signature message` checks a signature
over the serialized message (serialization folded into the
abstraction); `encapsulate kem_pk` yields the KEM ciphertext and the
shared secret, its randomness folded in; `aead_open key nonce ct`
returns the plaintext or `none` on authentication failure. -/
structure Crypto where
  verify : Bytes → Bytes → Bytes → Bool
  sign : Bytes → Bytes → Bytes
  encapsulate : Bytes → Bytes × Bytes
  decapsulate : Bytes → Bytes → Bytes
  aead_open : Bytes → Bytes → Bytes → Option Bytes

/-- Modelled from the spec: `Secret::receive_shared_secret` (the
accept_handshake of spec section 4.2), called by src/src/main.rs on an
accepted SharedSecretExchange. Verification failure returns
InvalidSignature and leaves the store untouched; success encapsulates,
installs the shared secret for the peer and returns the ciphertext,
its signature and the local signature public key. The store is
returned alongside the result to make mutation explicit. -/
def receive_shared_secret (c : Crypto) (s : Secret) (peer : String)
    (kem_pk sg pk : Bytes) : Secret × Except SecretError (Bytes × Bytes × Bytes) :=
  if c.verify pk sg kem_pk then
    let ct := (c.encapsulate kem_pk).1
    let ss := (c.encapsulate kem_pk).2
    ({ s with shared_secret := map_insert s.shared_secret peer ss },
      Except.ok (ct, c.sign s.private_key ct, s.public_key))
  else
    (s, Except.error SecretError.InvalidSignature)

/-- Modelled from the spec: `Secret::receive_shared_secret_response`
(the complete_handshake of spec section 4.2), called by
src/src/main.rs on a SharedSecretExchangeResponse. A missing pending
entry fails NoPending; a bad signature fails InvalidSignature; both
leave the store untouched. Success decapsulates, installs the shared
secret and drains the pending entry. -/
def receive_shared_secret_response (c : Crypto) (s : Secret) (peer : String)
    (kem_ct sg pk : Bytes) : Secret × Except SecretError Unit :=
  match map_lookup s.pending peer with
  | none => (s, Except.error SecretError.NoPending)
  | some kp =>
    if c.verify pk sg kem_ct then
      ({ s with
          shared_secret := map_insert s.shared_secret peer (c.decapsulate kp.2 kem_ct),
          pending := map_erase s.pending peer },
        Except.ok ())
    else
      (s, Except.error SecretError.InvalidSignature)

/-- Modelled from the spec: `Secret::decrypt` of spec section 4.2,
called by src/src/main.rs on a SharedSecretCommunication. A missing
session fails NoSession; an AEAD authentication failure fails
AeadFailure; the store is never mutated. -/
def decrypt (c : Crypto) (s : Secret) (peer : String) (nonce ct : Bytes) :
    Secret × Except SecretError Bytes :=
  match map_lookup s.shared_secret peer with
  | none => (s, Except.error SecretError.NoSession)
  | some key =>
    match c.aead_open key nonce ct with
    | none => (s, Except.error SecretError.AeadFailure)
    | some pt => (s, Except.ok pt)

/-- The SharedSecretExchange branch of handle_event in src/src/main.rs
(lines 63-93): receive the shared secret (on error print and return
with no further action), join the direct-message room of the peer,
fetch its handle and publish the SharedSecretExchangeResponse there
(publication itself is transport state; the published envelope is the
second component). -/
def handle_sse (c : Crypto) (g : Gossip) (peer : String)
    (kem_pk sg pk : Bytes) : Gossip × Option InteractionMessage :=
  match receive_shared_secret c g.secret peer kem_pk sg pk with
  | (s1, Except.error _) => ({ g with secret := s1 }, none)
  | (s1, Except.ok r) =>
    let g1 := join_room { g with secret := s1 } (generate_room_name peer)
    match fetch_room_from_name g1 (generate_room_name peer) with
    | none => (g1, none)
    | some _ =>
      (g1, some (InteractionMessage.SharedSecretExchangeResponse r.1 r.2.1 r.2.2))

/-- A room operation: the two table mutations of src/src/gossip/mod.rs. -/
inductive RoomOp
  | join (name : String)
  | leave (name : String)

/-- Apply one room operation. -/
def apply_room_op (g : Gossip) : RoomOp → Gossip
  | RoomOp.join s => join_room g s
  | RoomOp.leave s => leave_room g s

/-- Apply a sequence of room operations in order. -/
def apply_room_ops (g : Gossip) : List RoomOp → Gossip
  | [] => g
  | op :: rest => apply_room_ops (apply_room_op g op) rest

/-- Freshness of a sequence of room operations: every join names a room
absent from the table at the moment it runs. -/
def ops_fresh : Gossip → List RoomOp → Prop
  | _, [] => True
  | g, RoomOp.join s :: rest => s ∉ room_names g ∧ ops_fresh (join_room g s) rest
  | g, RoomOp.leave s :: rest => ops_fresh (leave_room g s) rest

/-- A concrete empty secret store for sample states. -/
def sampleSecret : Secret := ⟨[], [], [], []⟩

/-- A concrete freshly constructed node (Gossip::new: empty room table)
whose printable peer id is the eleven characters PEERID9ABCD. -/
def sampleBase : Gossip := ⟨"PEERID9ABCD", [], [], sampleSecret⟩

/-- The sample node after the startup sequence of src/src/main.rs: the
room table holds public_test and the direct-message room 9ABCD. -/
def sampleGossip : Gossip := startup sampleBase

/-- A concrete parser for witnesses: the text sse parses to a
SharedSecretExchange, everything else fails to parse. -/
def parse_c2 : String → Option InteractionMessage :=
  fun s =>
    if s == "sse" then some (InteractionMessage.SharedSecretExchange [1] [2] [3])
    else none

/-- A concrete Debug formatter for witnesses. -/
def dbg_c2 : InteractionMessage → String := fun _ => "SSE"

/-- A concrete parser for witnesses: ping parses to Ping, rpk to
RequestPublicKey, everything else fails to parse. -/
def parse_c6 : String → Option InteractionMessage :=
  fun s =>
    if s == "ping" then some InteractionMessage.Ping
    else if s == "rpk" then some InteractionMessage.RequestPublicKey
    else none

/-- A concrete crypto bundle whose signature verification and AEAD
authentication always fail, for exercising the failure paths. -/
def cryptoReject : Crypto :=
  ⟨fun _ _ _ => false, fun _ _ => [], fun _ => ([], []), fun _ _ => [],
    fun _ _ _ => none⟩

/-- A concrete secret store holding one established session, for
exercising the AEAD failure path. -/
def secretWithSession : Secret := ⟨[], [], [("QmPeer", [5])], []⟩

/-- A concrete node owning one established session. -/
def gossipWithSession : Gossip :=
  ⟨"PEERID9ABCD", [("public_test", "public_test"), ("9ABCD", "9ABCD")], [],
    secretWithSession⟩

/-- Helper: find? returns the first element of the list satisfying the
predicate when the list decomposes around such an element. -/
theorem find?_first {α} (p : α → Bool) (l1 l2 : List α) (t : α)
    (ht : p t = true) (hl : ∀ u ∈ l1, p u = false) :
    (l1 ++ t :: l2).find? p = some t := by
  induction l1 with
  | nil => simp [List.find?, ht]
  | cons a l ih =>
    have ha := hl a (by simp)
    simpa [List.find?, ha] using ih (fun u hu => hl u (by simp [hu]))

/-- Helper: find? yields some value when some member satisfies the
predicate. -/
theorem find?_isSome_of_mem {α} (p : α → Bool) (l : List α) (x : α)
    (hx : x ∈ l) (hp : p x = true) : ∃ u, l.find? p = some u := by
  induction l with
  | nil => exact absurd hx (List.not_mem_nil x)
  | cons a l ih =>
    cases hpa : p a with
    | true => exact ⟨a, by simp [List.find?, hpa]⟩
    | false =>
      have hx2 : x ∈ l := by
        rcases List.mem_cons.mp hx with h | h
        · rw [h] at hp; rw [hp] at hpa; simp at hpa
        · exact h
      obtain ⟨u, hu⟩ := ih hx2
      exact ⟨u, by simp [List.find?, hpa, hu]⟩

/-- C3: every frame published by Gossip::gossip is a 16-byte random
block followed by the serialization of the envelope, so its length is
16 plus the length of the serialization, and stripping is a left
inverse of prefixing: remove_nounce (add_nounce n b) = b. -/
theorem c3_frame_shape (ser : InteractionMessage → Bytes) (nounce : Bytes)
    (m : InteractionMessage) (b : Bytes) (h : nounce.length = 16) :
    (gossip_publish ser nounce m).length = 16 + (ser m).length
    ∧ gossip_publish ser nounce m = nounce ++ ser m
    ∧ remove_nounce (add_nounce nounce b) = some b := by
  refine ⟨by simp [gossip_publish, add_nounce, h], rfl, ?_⟩
  have hc : NOUNCE_LEN ≤ (nounce ++ b).length := by
    simp [NOUNCE_LEN, h]
  rw [add_nounce, remove_nounce, if_pos hc]
  have : NOUNCE_LEN = nounce.length := by rw [h]; rfl
  rw [this, List.drop_left]

/-- Witness for C3 at a concrete 16-byte nounce, a constant serializer
and the byte string [9]. -/
theorem c3_witness :
    (List.replicate 16 0 : Bytes).length = 16
    ∧ ((gossip_publish (fun _ => [1, 2, 3]) (List.replicate 16 0)
          InteractionMessage.Ping).length
        = 16 + ((fun _ => ([1, 2, 3] : Bytes)) InteractionMessage.Ping).length
      ∧ gossip_publish (fun _ => [1, 2, 3]) (List.replicate 16 0)
          InteractionMessage.Ping
        = List.replicate 16 0 ++ (fun _ => ([1, 2, 3] : Bytes)) InteractionMessage.Ping
      ∧ remove_nounce (add_nounce (List.replicate 16 0) [9]) = some [9]) :=
  ⟨by decide,
    c3_frame_shape (fun _ => [1, 2, 3]) (List.replicate 16 0)
      InteractionMessage.Ping [9] (by decide)⟩

/-- C10: remove_nounce is partial. For inputs of length at least 16 it
returns the bytes after the first 16; for shorter inputs the slice
index panics (none) instead of yielding an error value, so an inbound
frame that passed the routing filter but is shorter than 16 bytes
aborts handle_event (the panic value) instead of being reported. -/
theorem c10_remove_nounce_panics (b : Bytes) (decode : Bytes → String)
    (g : Gossip) (peer : String) (msg : InboundMessage) :
    (16 ≤ b.length → remove_nounce b = some (b.drop 16))
    ∧ (b.length < 16 → remove_nounce b = none)
    ∧ (msg.data.length < 16 → routing_drop g peer msg.topic = false →
        handle_event_message decode g peer msg = Except.error ()) := by
  refine ⟨fun h => ?_, fun h => ?_, fun h hdrop => ?_⟩
  · rw [remove_nounce, if_pos (show NOUNCE_LEN ≤ b.length by simp only [NOUNCE_LEN]; omega)]
    rfl
  · rw [remove_nounce, if_neg (show ¬NOUNCE_LEN ≤ b.length by simp only [NOUNCE_LEN]; omega)]
  · have hrn : remove_nounce msg.data = none := by
      rw [remove_nounce,
        if_neg (show ¬NOUNCE_LEN ≤ msg.data.length by simp only [NOUNCE_LEN]; omega)]
    rw [handle_event_message, if_neg (by simp [hdrop]), hrn]

/-- Witness for C10: a 20-byte frame is stripped to its last 4 bytes, a
3-byte frame panics, and an accepted 1-byte frame on a public topic
aborts handle_event. -/
theorem c10_witness :
    remove_nounce (List.replicate 20 (7 : Nat)) = some ((List.replicate 20 (7 : Nat)).drop 16)
    ∧ remove_nounce [1, 2, 3] = none
    ∧ handle_event_message (fun _ => "") sampleGossip "QmOtherPeer"
        ⟨"public_x", [1]⟩ = Except.error () :=
  ⟨(c10_remove_nounce_panics (List.replicate 20 7) (fun _ => "") sampleGossip
      "QmOtherPeer" ⟨"public_x", [1]⟩).1 (by decide),
   (c10_remove_nounce_panics [1, 2, 3] (fun _ => "") sampleGossip
      "QmOtherPeer" ⟨"public_x", [1]⟩).2.1 (by decide),
   (c10_remove_nounce_panics [] (fun _ => "") sampleGossip
      "QmOtherPeer" ⟨"public_x", [1]⟩).2.2 (by decide) (by decide)⟩

/-- C9: get_topic_name_from_hash scans the room table in order; when
some entry carries the sought topic hash (for IdentTopic, the name
itself) it returns the classification of the first such entry, and
when none does it panics (none) rather than returning normally. -/
theorem c9_resolve_by_hash (g : Gossip) (topic : String)
    (l1 l2 : List (String × String)) (t : String × String) :
    (g.topics = l1 ++ t :: l2 → t.2 = topic → (∀ u ∈ l1, u.2 ≠ topic) →
      get_topic_name_from_hash g topic = some (get_room_from_topic g t.1))
    ∧ ((∀ u ∈ g.topics, u.2 ≠ topic) →
      get_topic_name_from_hash g topic = none) := by
  constructor
  · intro hdec ht hl
    have hfind : (g.topics.find? fun e => e.2 == topic) = some t := by
      rw [hdec]
      exact find?_first _ l1 l2 t (by simp [ht])
        (fun u hu => by simpa using hl u hu)
    rw [get_topic_name_from_hash, hfind]
    rfl
  · intro hall
    have hfind : (g.topics.find? fun e => e.2 == topic) = none := by
      rw [List.find?_eq_none]
      intro u hu
      simpa using hall u hu
    rw [get_topic_name_from_hash, hfind]
    rfl

/-- Witness for C9 on the sample table: the hash 9ABCD resolves to the
classification of its first entry, and an unsubscribed hash panics. -/
theorem c9_witness :
    get_topic_name_from_hash sampleGossip "9ABCD"
      = some (get_room_from_topic sampleGossip "9ABCD")
    ∧ get_topic_name_from_hash sampleGossip "nothere" = none :=
  ⟨(c9_resolve_by_hash sampleGossip "9ABCD" [("public_test", "public_test")] []
      ("9ABCD", "9ABCD")).1 (by decide) (by decide) (by decide),
   (c9_resolve_by_hash sampleGossip "nothere" [] [] ("", "")).2 (by decide)⟩

/-- C1: the Message arm of Gossip::handle_event returns None (drops the
frame silently, before any further processing) exactly when the topic
is not a public room, the topic name is not contained in the printable
id of the sending peer, and not contained in the printable id of the
local node; and in every other case, provided the frame carries at
least the 16 nounce bytes and its topic is in the room table (the
transport only delivers subscribed topics), the frame is surfaced as a
Message event. -/
theorem c1_routing_filter (decode : Bytes → String) (g : Gossip)
    (peer : String) (msg : InboundMessage) :
    (handle_event_message decode g peer msg = Except.ok none ↔
      (starts_with msg.topic "public_" = false
        ∧ str_contains peer msg.topic = false
        ∧ str_contains g.localPeerId msg.topic = false))
    ∧ (16 ≤ msg.data.length → (∃ t ∈ g.topics, t.2 = msg.topic) →
        ¬(starts_with msg.topic "public_" = false
          ∧ str_contains peer msg.topic = false
          ∧ str_contains g.localPeerId msg.topic = false) →
        ∃ room, get_topic_name_from_hash g msg.topic = some room
          ∧ handle_event_message decode g peer msg
            = Except.ok (some (GossipEvent.Message
                ⟨peer, decode (msg.data.drop 16), room⟩))) := by
  constructor
  · cases hd : routing_drop g peer msg.topic
    · have hcond : ¬(starts_with msg.topic "public_" = false
          ∧ str_contains peer msg.topic = false
          ∧ str_contains g.localPeerId msg.topic = false) := by
        intro ⟨ha, hb, hc⟩
        rw [routing_drop, ha, hb, hc] at hd
        simp at hd
      constructor
      · intro hok
        exfalso
        rw [handle_event_message, if_neg (by simp [hd])] at hok
        cases hrn : remove_nounce msg.data with
        | none => rw [hrn] at hok; cases hok
        | some d =>
          rw [hrn] at hok
          cases hr : get_topic_name_from_hash g msg.topic with
          | none => rw [hr] at hok; cases hok
          | some room => rw [hr] at hok; cases hok
      · intro hc; exact absurd hc hcond
    · have hcond : starts_with msg.topic "public_" = false
          ∧ str_contains peer msg.topic = false
          ∧ str_contains g.localPeerId msg.topic = false := by
        simpa [routing_drop, and_assoc] using hd
      constructor
      · intro _; exact hcond
      · intro _; rw [handle_event_message, if_pos hd]
  · intro h16 htop hcond
    have hd : routing_drop g peer msg.topic = false := by
      cases hdq : routing_drop g peer msg.topic
      · rfl
      · exact absurd (by simpa [routing_drop, and_assoc] using hdq) hcond
    obtain ⟨t, htmem, hteq⟩ := htop
    obtain ⟨u, hu⟩ := find?_isSome_of_mem (fun e => e.2 == msg.topic)
      g.topics t htmem (by simp [hteq])
    have hroom : get_topic_name_from_hash g msg.topic
        = some (get_room_from_topic g u.1) := by
      rw [get_topic_name_from_hash, hu]; rfl
    have hrn : remove_nounce msg.data = some (msg.data.drop 16) := by
      rw [remove_nounce,
        if_pos (show NOUNCE_LEN ≤ msg.data.length by simp only [NOUNCE_LEN]; omega)]
      rfl
    refine ⟨get_room_from_topic g u.1, hroom, ?_⟩
    rw [handle_event_message, if_neg (by simp [hd]), hrn, hroom]

/-- Witness for C1: on the sample node a frame on the public_test topic
from an unrelated peer is not dropped. -/
theorem c1_witness :
    handle_event_message (fun _ => "") sampleGossip "QmOtherPeer"
      ⟨"public_test", List.replicate 16 0⟩ ≠ Except.ok none := by
  intro hok
  have h := (c1_routing_filter (fun _ => "") sampleGossip "QmOtherPeer"
    ⟨"public_test", List.replicate 16 0⟩).1.mp hok
  exact absurd h.1 (by decide)

/-- C6: in a public room every envelope other than Ping collapses to
Other carrying a debug string and the state is returned untouched,
while a Ping is reported as Ping in every room kind. -/
theorem c6_public_room (parse : String → Option InteractionMessage)
    (dbg : InteractionMessage → String) (g : Gossip)
    (peer txt name : String) (m : InteractionMessage)
    (hp : parse txt = some m) (hm : m ≠ InteractionMessage.Ping) :
    get_message_via_data parse dbg g ⟨peer, txt, Room.PublicRoom name⟩
      = (g, Except.ok (InteractionMessage.Other ("Public room: " ++ dbg m)))
    ∧ ∀ (peer2 txt2 : String) (room : Room),
        parse txt2 = some InteractionMessage.Ping →
        get_message_via_data parse dbg g ⟨peer2, txt2, room⟩
          = (g, Except.ok InteractionMessage.Ping) := by
  constructor
  · cases m with
    | Ping => exact absurd rfl hm
    | RequestPublicKey => rw [get_message_via_data]; rw [hp]
    | ReplyPublicKey pk => rw [get_message_via_data]; rw [hp]
    | SharedSecretExchange a s p => rw [get_message_via_data]; rw [hp]
    | SharedSecretExchangeResponse a s p => rw [get_message_via_data]; rw [hp]
    | SharedSecretCommunication n c => rw [get_message_via_data]; rw [hp]
    | Other e => rw [get_message_via_data]; rw [hp]
  · intro peer2 txt2 room hping
    cases room with
    | PublicRoom n => rw [get_message_via_data]; rw [hping]
    | DirectMessage n => rw [get_message_via_data]; rw [hping]

/-- Witness for C6: a RequestPublicKey in the public room collapses to
Other, and a Ping in the direct-message room stays Ping. -/
theorem c6_witness :
    get_message_via_data parse_c6 dbg_c2 sampleGossip
      ⟨"QmOtherPeer", "rpk", Room.PublicRoom "public_test"⟩
      = (sampleGossip,
          Except.ok (InteractionMessage.Other
            ("Public room: " ++ dbg_c2 InteractionMessage.RequestPublicKey)))
    ∧ get_message_via_data parse_c6 dbg_c2 sampleGossip
        ⟨"QmOtherPeer", "ping", Room.DirectMessage "9ABCD"⟩
        = (sampleGossip, Except.ok InteractionMessage.Ping) := by
  have h := c6_public_room parse_c6 dbg_c2 sampleGossip "QmOtherPeer" "rpk"
    "public_test" InteractionMessage.RequestPublicKey (by decide) (by decide)
  exact ⟨h.1, h.2 "QmOtherPeer" "ping" (Room.DirectMessage "9ABCD") (by decide)⟩

/-- C8: get_message_via_data fails with the Serde error exactly when
the payload does not parse as an InteractionMessage, and on any error
(Serde or NotOurChannel) the Gossip state is returned unchanged. -/
theorem c8_serde_error (parse : String → Option InteractionMessage)
    (dbg : InteractionMessage → String) (g : Gossip) (md : MessageData) :
    ((get_message_via_data parse dbg g md).2
        = Except.error GetDataViaMessageError.Serde
      ↔ parse md.message = none)
    ∧ (∀ e, (get_message_via_data parse dbg g md).2 = Except.error e →
        (get_message_via_data parse dbg g md).1 = g) := by
  refine ⟨?_, fun e _ => rfl⟩
  cases hp : parse md.message with
  | none => simp [get_message_via_data, hp]
  | some m =>
    simp only [get_message_via_data, hp]
    rcases md with ⟨p, t, room⟩
    cases room <;> cases m <;>
      simp only [] <;>
      first
        | (split <;> simp)
        | simp

/-- Witness for C8 at a concrete non-parsing payload: the result is the
Serde error and the state component is unchanged. -/
theorem c8_witness :
    (get_message_via_data parse_c6 dbg_c2 sampleGossip
        ⟨"QmOtherPeer", "garbage", Room.PublicRoom "public_test"⟩).2
      = Except.error GetDataViaMessageError.Serde
    ∧ (get_message_via_data parse_c6 dbg_c2 sampleGossip
        ⟨"QmOtherPeer", "garbage", Room.PublicRoom "public_test"⟩).1
      = sampleGossip := by
  have h := c8_serde_error parse_c6 dbg_c2 sampleGossip
    ⟨"QmOtherPeer", "garbage", Room.PublicRoom "public_test"⟩
  have he := h.1.mpr (by decide)
  exact ⟨he, h.2 GetDataViaMessageError.Serde he⟩

/-- Counterexample to C2 as stated: a frame whose payload parses to
SharedSecretExchange and whose room name equals the direct-message
room name of the local node, but whose room is a PublicRoom (exactly
what get_room_from_topic produces for that name), is answered with
Other, not with the SharedSecretExchange message, and not with
NotOurChannel either. -/
theorem c2_counterexample :
    parse_c2 "sse" = some (InteractionMessage.SharedSecretExchange [1] [2] [3])
    ∧ (Room.PublicRoom "9ABCD").name = generate_room_name sampleGossip.localPeerId
    ∧ get_room_from_topic sampleGossip
        (generate_room_name sampleGossip.localPeerId) = Room.PublicRoom "9ABCD"
    ∧ (get_message_via_data parse_c2 dbg_c2 sampleGossip
        ⟨"QmOtherPeer", "sse", Room.PublicRoom "9ABCD"⟩).2
      ≠ Except.ok (InteractionMessage.SharedSecretExchange [1] [2] [3])
    ∧ (get_message_via_data parse_c2 dbg_c2 sampleGossip
        ⟨"QmOtherPeer", "sse", Room.PublicRoom "9ABCD"⟩).2
      ≠ Except.error GetDataViaMessageError.NotOurChannel := by
  have hres : (get_message_via_data parse_c2 dbg_c2 sampleGossip
      ⟨"QmOtherPeer", "sse", Room.PublicRoom "9ABCD"⟩).2
      = Except.ok (InteractionMessage.Other
          ("Public room: "
            ++ dbg_c2 (InteractionMessage.SharedSecretExchange [1] [2] [3]))) := rfl
  refine ⟨by decide, by decide, by decide, ?_, ?_⟩ <;> rw [hres] <;> simp [dbg_c2]

/-- C2 amended: for a frame whose room is classified DirectMessage and
whose payload parses to SharedSecretExchange, get_message_via_data
returns the SharedSecretExchange message exactly when the room name
equals the direct-message room name of the local node, and returns the
NotOurChannel error otherwise. -/
theorem c2_handshake_gate (parse : String → Option InteractionMessage)
    (dbg : InteractionMessage → String) (g : Gossip)
    (peer txt name : String) (a s p : Bytes)
    (hp : parse txt = some (InteractionMessage.SharedSecretExchange a s p)) :
    ((get_message_via_data parse dbg g ⟨peer, txt, Room.DirectMessage name⟩).2
        = Except.ok (InteractionMessage.SharedSecretExchange a s p)
      ↔ name = generate_room_name g.localPeerId)
    ∧ (name ≠ generate_room_name g.localPeerId →
        (get_message_via_data parse dbg g ⟨peer, txt, Room.DirectMessage name⟩).2
          = Except.error GetDataViaMessageError.NotOurChannel) := by
  by_cases h : generate_room_name g.localPeerId = name
  · constructor
    · simp [get_message_via_data, hp, Room.name, h]
    · intro hne; exact absurd h.symm hne
  · constructor
    · simp [get_message_via_data, hp, Room.name, h]
      exact fun hc => absurd hc.symm h
    · intro _; simp [get_message_via_data, hp, Room.name, h]

/-- Witness for C2 amended: on the sample node the handshake is
accepted in the DirectMessage room 9ABCD and refused in a different
DirectMessage room. -/
theorem c2_witness :
    (get_message_via_data parse_c2 dbg_c2 sampleGossip
        ⟨"QmOtherPeer", "sse", Room.DirectMessage "9ABCD"⟩).2
      = Except.ok (InteractionMessage.SharedSecretExchange [1] [2] [3])
    ∧ (get_message_via_data parse_c2 dbg_c2 sampleGossip
        ⟨"QmOtherPeer", "sse", Room.DirectMessage "XXXXX"⟩).2
      = Except.error GetDataViaMessageError.NotOurChannel := by
  have h1 := c2_handshake_gate parse_c2 dbg_c2 sampleGossip "QmOtherPeer"
    "sse" "9ABCD" [1] [2] [3] (by decide)
  have h2 := c2_handshake_gate parse_c2 dbg_c2 sampleGossip "QmOtherPeer"
    "sse" "XXXXX" [1] [2] [3] (by decide)
  exact ⟨h1.1.mpr (by decide), h2.2 (by decide)⟩

/-- Counterexample to C7 as stated: starting from the startup state,
calling join_room twice with the same name leaves two entries named a
in the room table, so the names are not pairwise distinct. -/
theorem c7_counterexample :
    ¬ List.Nodup
      (room_names (join_room (join_room (startup sampleBase) "a") "a")) := by
  decide

/-- Helper: mapping first components commutes with filtering on the
first component. -/
theorem map_fst_filter_ne (s : String) (l : List (String × String)) :
    ((l.filter fun t => t.1 != s).map fun t => t.1)
      = ((l.map fun t => t.1).filter fun n => n != s) := by
  induction l with
  | nil => rfl
  | cons a l ih =>
    cases h : (a.1 != s) with
    | true => simp [List.filter_cons, h, ih]
    | false => simp [List.filter_cons, h, ih]

/-- C7 amended: the room-table names stay pairwise distinct under any
sequence of join_room and leave_room operations in which every join
names a room absent from the table at that moment; but a join_room
with a name already present does create a second entry with that name,
breaking distinctness. -/
theorem c7_names_distinct (g : Gossip) (ops : List RoomOp)
    (h0 : (room_names g).Nodup) (hf : ops_fresh g ops) :
    (room_names (apply_room_ops g ops)).Nodup
    ∧ ∀ (g2 : Gossip) (s : String), s ∈ room_names g2 →
        ¬ (room_names (join_room g2 s)).Nodup := by
  constructor
  · induction ops generalizing g with
    | nil => exact h0
    | cons op rest ih =>
      cases op with
      | join s =>
        obtain ⟨hs, hf2⟩ := hf
        refine ih (join_room g s) ?_ hf2
        have hjn : room_names (join_room g s) = room_names g ++ [s] := by
          simp [room_names, join_room]
        rw [hjn, List.nodup_append]
        refine ⟨h0, List.nodup_singleton s, ?_⟩
        intro x hx hxs
        rw [List.mem_singleton] at hxs
        exact hs (hxs ▸ hx)
      | leave s =>
        refine ih (leave_room g s) ?_ hf
        have hlv : room_names (leave_room g s)
            = (room_names g).filter fun n => n != s := by
          simp only [room_names, leave_room]
          exact map_fst_filter_ne s g.topics
        rw [hlv]
        exact h0.filter _
  · intro g2 s hs hnd
    have hjn : room_names (join_room g2 s) = room_names g2 ++ [s] := by
      simp [room_names, join_room]
    rw [hjn, List.nodup_append] at hnd
    exact hnd.2.2 hs (List.mem_singleton_self s)

/-- Witness for C7 amended: a fresh join then a leave keeps the sample
names distinct, and joining public_test again breaks distinctness. -/
theorem c7_witness :
    (room_names (apply_room_ops sampleGossip
        [RoomOp.join "b", RoomOp.leave "public_test"])).Nodup
    ∧ ¬ (room_names (join_room sampleGossip "public_test")).Nodup := by
  have h := c7_names_distinct sampleGossip
    [RoomOp.join "b", RoomOp.leave "public_test"]
    (by decide) ⟨by decide, by exact trivial⟩
  exact ⟨h.1, h.2 sampleGossip "public_test" (by decide)⟩

/-- C4, evidence of the classification slip: on the sample node with
printable peer id PEERID9ABCD, the direct-message room name is 9ABCD
and is exactly the name joined at startup, names with the public_
start and other names classify as PublicRoom as the claim says, but
the direct-message room name 9ABCD itself also classifies as
PublicRoom, because get_room_from_topic compares the topic against the
full printable peer id - only the full id would classify as
DirectMessage. -/
theorem c4_classification_bug :
    generate_room_name sampleGossip.localPeerId = "9ABCD"
    ∧ room_names (startup sampleBase) = ["public_test", "9ABCD"]
    ∧ get_room_from_topic sampleGossip "public_test"
        = Room.PublicRoom "public_test"
    ∧ get_room_from_topic sampleGossip "otherroom"
        = Room.PublicRoom "otherroom"
    ∧ get_room_from_topic sampleGossip "9ABCD" = Room.PublicRoom "9ABCD"
    ∧ get_room_from_topic sampleGossip "PEERID9ABCD"
        = Room.DirectMessage "PEERID9ABCD" := by
  decide

/-- C5: a signature verification failure in the accept path or the
complete path, and an AEAD authentication failure in decrypt, leave
the session map, the pending map and the room table exactly as they
were; in particular the whole orchestrator state survives a rejected
SharedSecretExchange untouched and no response is published. -/
theorem c5_failure_no_mutation (c : Crypto) (g : Gossip) (peer : String)
    (kem_pk sg pk kem_ct n ct : Bytes) :
    (c.verify pk sg kem_pk = false →
      handle_sse c g peer kem_pk sg pk = (g, none))
    ∧ (c.verify pk sg kem_ct = false →
      (receive_shared_secret_response c g.secret peer kem_ct sg pk).1
        = g.secret)
    ∧ (∀ key, map_lookup g.secret.shared_secret peer = some key →
        c.aead_open key n ct = none →
        decrypt c g.secret peer n ct
          = (g.secret, Except.error SecretError.AeadFailure)) := by
  refine ⟨fun hv => ?_, fun hv => ?_, fun key hk ha => ?_⟩
  · have hr : receive_shared_secret c g.secret peer kem_pk sg pk
        = (g.secret, Except.error SecretError.InvalidSignature) := by
      rw [receive_shared_secret, if_neg (by simp [hv])]
    simp [handle_sse, hr]
  · cases hl : map_lookup g.secret.pending peer with
    | none => rw [receive_shared_secret_response, hl]
    | some kp =>
        rw [receive_shared_secret_response, hl]
        simp [hv]
  · simp [decrypt, hk, ha]

/-- Witness for C5 with an always-rejecting crypto bundle on a node
holding one established session. -/
theorem c5_witness :
    handle_sse cryptoReject gossipWithSession "QmPeer" [1] [2] [3]
      = (gossipWithSession, none)
    ∧ (receive_shared_secret_response cryptoReject gossipWithSession.secret
        "QmPeer" [1] [2] [3]).1 = gossipWithSession.secret
    ∧ decrypt cryptoReject gossipWithSession.secret "QmPeer" [9] [8]
      = (gossipWithSession.secret, Except.error SecretError.AeadFailure) := by
  have h := c5_failure_no_mutation cryptoReject gossipWithSession "QmPeer"
    [1] [2] [3] [1] [9] [8]
  exact ⟨h.1 rfl, h.2.1 rfl, h.2.2 [5] (by decide) rfl⟩
